import Mathlib

/-!
Verification development for src/postcode_parser.py, a single-file pipeline
that ingests Ordnance Survey postcode data (shapefile polygons, attribute
CSVs, vertical-street text files) into a PostgreSQL database.

The Python source is shallowly embedded: each pipeline stage is translated
into a function that produces the ordered trace of database actions the stage
issues (batches of SQL statements handed to the statement-batch primitive,
ogr2ogr converter invocations, and streaming bulk copies), and small
interpreters give those traces semantics.  String handling mirrors Python
semantics (str.split, file readlines, str.lower, str.endswith,
str.startswith) at the character-list level so that every statement can be
evaluated on concrete inputs by the kernel.
-/

namespace PostcodeParserModel

/-! ## Python string primitives, modelled at the character level -/

/-- Model of Python list-begins-with: returns true when the first list is an
initial segment of the second. -/
def listBegins : List Char → List Char → Bool
  | [], _ => true
  | _ :: _, [] => false
  | a :: as, b :: bs => a == b && listBegins as bs

/-- Model of Python str.startswith. -/
def strBegins (s pat : String) : Bool :=
  listBegins pat.data s.data

/-- Model of Python str.endswith: the pattern is a final segment of the
string. -/
def strEndsWith (s pat : String) : Bool :=
  listBegins pat.data.reverse s.data.reverse

/-- Model of Python str.lower for the ASCII column names this program
handles: each character is lowercased individually. -/
def pyLower (s : String) : String :=
  String.mk (s.data.map Char.toLower)

/-- Model of Python str.split with an explicit one-character separator
(auxiliary, accumulates the current token reversed): splitting never merges
separators and the empty string yields one empty token, exactly as in
Python. -/
def splitCharAux (sep : Char) : List Char → List Char → List String
  | [], acc => [String.mk acc.reverse]
  | c :: cs, acc =>
    if c = sep then String.mk acc.reverse :: splitCharAux sep cs []
    else splitCharAux sep cs (c :: acc)

/-- Model of Python str.split(sep) for a one-character separator. -/
def pySplitChar (sep : Char) (s : String) : List String :=
  splitCharAux sep s.data []

/-- Model of Python file.readlines (auxiliary): lines keep their trailing
newline character, and a final segment without a newline is kept only when
it is non-empty. -/
def readlinesAux : List Char → List Char → List (List Char)
  | [], acc => if acc = [] then [] else [acc.reverse]
  | c :: cs, acc =>
    if c = '\n' then (acc.reverse ++ ['\n']) :: readlinesAux cs []
    else readlinesAux cs (c :: acc)

/-- Model of Python file.readlines: the list of lines of the file, each
keeping its newline terminator. -/
def pyReadlines (s : String) : List String :=
  (readlinesAux s.data []).map String.mk

/-- Python negative index [-1] on a non-empty list, written head/tail: the
last element of a :: l. -/
def lastD {α : Type} : α → List α → α
  | a, [] => a
  | _, b :: l => lastD b l

/-- Model of pathlib joining with the / operator, as used for
self.base_path / self.zip_file / entry. -/
def pathJoin (a b : String) : String := a ++ "/" ++ b

/-! ## The SQL statements and database actions the stages issue

Each constructor mirrors one statement shape that appears verbatim in the
source; table and column names are carried as strings copied from the
source. -/

inductive Sql where
  | dropIfExists (table : String)
  | dropTable (table : String)
  | renameColumn (table oldName newName : String)
  | createTableAsSelect (ifNotExists : Bool) (table : String)
      (columns : List String) (source : String)
  | createTableRightJoin (table : String) (columns : List (String × String))
      (leftTable rightTable keyColumn : String)
  | addPrimaryKey (table column : String)
  | alterColumnType (table column newType : String) (usingCast : Option String)
  | createTable (table : String) (columns : List (String × String))
  | addSerialColumn (table column : String)
  | createIndex (indexName table method column : String) (patternOps : Bool)
deriving DecidableEq, Repr

/-- One observable action of a pipeline stage: a call to the statement-batch
primitive by its (unqualified) Python name, an ogr2ogr subprocess invocation,
or a streaming bulk copy of one archive entry.  Logging prints are omitted. -/
inductive Action where
  | callNamedBatch (callee : String) (stmts : List Sql)
  | ogr2ogr (sourcePath destTable : String) (append : Bool)
      (geometryType : Option String) (targetSrs : Option String)
  | copyCsv (destTable : String) (entryName : String)
deriving DecidableEq, Repr

/-- All SQL statements of a trace, in order, flattening the batches. -/
def sqlStatementsOf (tr : List Action) : List Sql :=
  tr.flatMap (fun a =>
    match a with
    | .callNamedBatch _ stmts => stmts
    | _ => [])

/-! ## Table names fixed in PostcodeParser.__init__ -/

def staging_table : String := "postcode_staging"
def geom_table : String := "postcode_polygons"
def target_table : String := "postcode"
def vstreet_table : String := "vstreet_table"
def vstreet_target : String := "vstreetlookup"

/-! ## Archive model

The top-level archive is a list of entries; an entry that is itself a nested
archive carries the name list of its contents (parse_polys opens nested zip
entries in place, without extraction). -/

structure ZipEntry where
  name : String
  contents : List String
deriving DecidableEq, Repr

/-! ## Geometry Ingest Stage (PostcodeParser.parse_polys) -/

/-- The statement batch issued after the shapefile loop of parse_polys:
rename the converter columns, project the staging table into the geometry
table, key and retype it, and drop staging. -/
def parse_polys_cleanup_batch : List Sql :=
  [ .renameColumn staging_table "ogc_fid" "id"
  , .renameColumn staging_table "wkb_geometry" "polygon"
  , .createTableAsSelect true geom_table ["id", "postcode", "pc_area", "polygon"] staging_table
  , .addPrimaryKey geom_table "id"
  , .alterColumnType geom_table "polygon" "geography" none
  , .dropTable staging_table ]

/-- The action trace of parse_polys: for every top-level entry ending in
.zip, the stage (inside that loop iteration) issues the drop-if-exists batch
for the staging table and then one ogr2ogr append per .shp entry of the
nested archive; after the loop it issues the cleanup batch.  The statement
batches are handed to the name exec_sql_statements, exactly as in the
source. -/
def parse_polys_trace (basePath zipFileName : String) (arc : List ZipEntry) : List Action :=
  ((arc.filter (fun e => strEndsWith e.name ".zip")).flatMap (fun zf =>
    Action.callNamedBatch "exec_sql_statements" [.dropIfExists staging_table]
      :: (zf.contents.filter (fun f => strEndsWith f ".shp")).map (fun f =>
          Action.ogr2ogr
            ("/vsizip/vsizip/" ++ pathJoin (pathJoin (pathJoin basePath zipFileName) zf.name) f)
            staging_table true (some "MULTIPOLYGON") (some "EPSG:4326"))))
  ++ [Action.callNamedBatch "exec_sql_statements" parse_polys_cleanup_batch]

/-! Semantics for the geometry stage: the staging and geometry tables are
tracked as lists of the source paths whose rows they hold (each ogr2ogr
invocation appends the rows of one shapefile).  The statement-batch
primitive exec_sql_statements is not defined in the source file; its
execution here is modelled from the spec (section 4.3: execute an ordered
batch of statements). -/

structure PState where
  pstage : Option (List String)
  pgeom : Option (List String)
deriving DecidableEq, Repr

def applyPolysSql (st : PState) : Sql → PState
  | .dropIfExists t =>
    if t == staging_table then { st with pstage := none }
    else if t == geom_table then { st with pgeom := none }
    else st
  | .dropTable t =>
    if t == staging_table then { st with pstage := none }
    else if t == geom_table then { st with pgeom := none }
    else st
  | .createTableAsSelect ifne t _cols src =>
    if t == geom_table && src == staging_table then
      (if ifne && st.pgeom.isSome then st
       else { st with pgeom := st.pstage })
    else st
  | _ => st

def applyPolysAction (st : PState) : Action → PState
  | .callNamedBatch _ stmts => stmts.foldl applyPolysSql st
  | .ogr2ogr src t _ _ _ =>
    if t == staging_table then { st with pstage := some ((st.pstage.getD []) ++ [src]) }
    else st
  | _ => st

def runPolys (tr : List Action) (st : PState) : PState :=
  tr.foldl applyPolysAction st

/-! ## Schema Mapper (header handling at the top of PostcodeParser.parse_info)

The source reads the header file with header_file.readlines()[-1].split(,):
the last line as readlines returns it (newline kept), split on commas.
An empty file makes readlines()[-1] raise IndexError, modelled as none. -/

/-- Column names derived from the header file content, exactly as
parse_info derives them: the last element of readlines, split on commas. -/
def headerColumnNames (content : String) : Option (List String) :=
  match pyReadlines content with
  | [] => none
  | l :: ls => some (pySplitChar ',' (lastD l ls))

/-- The exclusion set tested in parse_info when building the join
projection. -/
def excludedColumns : List String :=
  ["postcode", "eastings", "northings", "delivery_points_used_to_create_the_cplc"]

/-- The ordered (generic_name, target_name) rename pairs built by the
parse_info loop for j in range(len(column_names)) (auxiliary, carrying the
loop counter): field_(j+1) is renamed to column_names[j].lower(). -/
def columnMappingPlanAux : Nat → List String → List (String × String)
  | _, [] => []
  | j, c :: cs => ("field_" ++ toString (j + 1), pyLower c) :: columnMappingPlanAux (j + 1) cs

/-- The Column Mapping Plan of parse_info. -/
def columnMappingPlan (columnNames : List String) : List (String × String) :=
  columnMappingPlanAux 0 columnNames

/-- The final join projection built by the same parse_info loop, as the list
of (table qualifier, column name) references that make up the fields string:
the geometry table id/postcode/pc_area columns, then every mapped column
whose lowercased name is not in the exclusion set, then the geometry table
polygon column. -/
def joinProjection (columnNames : List String) : List (String × String) :=
  [(geom_table, "id"), (geom_table, "postcode"), (geom_table, "pc_area")]
  ++ (columnNames.filter (fun c => !(excludedColumns.contains (pyLower c)))).map
      (fun c => (staging_table, pyLower c))
  ++ [(geom_table, "polygon")]

/-- The rename statements of the parse_info loop (auxiliary with the loop
counter), one ALTER TABLE RENAME COLUMN per header token. -/
def renameStmtsAux : Nat → List String → List Sql
  | _, [] => []
  | j, c :: cs =>
    Sql.renameColumn staging_table ("field_" ++ toString (j + 1)) (pyLower c)
      :: renameStmtsAux (j + 1) cs

/-- The fifteen per-column type casts issued on the target table, in source
order. -/
def parse_info_type_casts : List Sql :=
  [ .alterColumnType target_table "positional_quality_indicator" "int" (some "integer")
  , .alterColumnType target_table "po_box_indicator" "varchar(2)" none
  , .alterColumnType target_table "total_number_of_delivery_points" "int" (some "integer")
  , .alterColumnType target_table "domestic_delivery_points" "int" (some "integer")
  , .alterColumnType target_table "non_domestic_delivery_points" "int" (some "integer")
  , .alterColumnType target_table "po_box_delivery_points" "int" (some "integer")
  , .alterColumnType target_table "matched_address_premises" "int" (some "integer")
  , .alterColumnType target_table "unmatched_delivery_points" "int" (some "integer")
  , .alterColumnType target_table "country_code" "varchar(16)" none
  , .alterColumnType target_table "nhs_regional_ha_code" "varchar(16)" none
  , .alterColumnType target_table "nhs_ha_code" "varchar(16)" none
  , .alterColumnType target_table "admin_county_code" "varchar(16)" none
  , .alterColumnType target_table "admin_district_code" "varchar(16)" none
  , .alterColumnType target_table "admin_ward_code" "varchar(16)" none
  , .alterColumnType target_table "postcode_type" "varchar(2)" none ]

/-- The big statement batch of parse_info after the csv loop: renames per
the plan, drop-if-exists the target, create the target as the right join of
staging onto the geometry table keyed on postcode, the type casts, the
primary key, and only then the drops of the geometry and staging tables. -/
def parse_info_merge_batch (columnNames : List String) : List Sql :=
  renameStmtsAux 0 columnNames
  ++ [ Sql.dropIfExists target_table
     , Sql.createTableRightJoin target_table (joinProjection columnNames)
         staging_table geom_table "postcode" ]
  ++ parse_info_type_casts
  ++ [ Sql.addPrimaryKey target_table "id"
     , Sql.dropTable geom_table
     , Sql.dropTable staging_table ]

/-- The action trace of parse_info over the top-level archive name list and
the column names read from the header file: drop the staging table, one
ogr2ogr append per matching csv entry, then the merge batch. -/
def parse_info_trace (basePath zipFileName : String) (columnNames : List String)
    (arcNames : List String) : List Action :=
  [Action.callNamedBatch "exec_sql_statements" [.dropIfExists staging_table]]
  ++ (arcNames.filter (fun f =>
        strEndsWith f ".csv" && strBegins f "Code-Point/Data/CSV")).map (fun f =>
      Action.ogr2ogr ("/vsizip/" ++ pathJoin (pathJoin basePath zipFileName) f)
        staging_table true none none)
  ++ [Action.callNamedBatch "exec_sql_statements" (parse_info_merge_batch columnNames)]

/-! ## Right-join semantics

The relational engine is an external collaborator (spec section 1); the
semantics of the RIGHT JOIN statement parse_info issues is modelled here in
the standard way: every row of the right (geometry) table appears, paired
with each matching row of the left (staging) table, or with none when no
left row matches. -/

structure GeomRow where
  gid : Nat
  postcode : String
  pc_area : String
  polygon : String
deriving DecidableEq, Repr

structure AttrRow where
  postcode : String
  attrs : List String
deriving DecidableEq, Repr

/-- FROM staging RIGHT JOIN geom ON geom.postcode = staging.postcode. -/
def rightJoinOnPostcode (sRows : List AttrRow) (gRows : List GeomRow) :
    List (Option AttrRow × GeomRow) :=
  gRows.flatMap (fun g =>
    match sRows.filter (fun a => a.postcode == g.postcode) with
    | [] => [(none, g)]
    | a :: as => ((a :: as).map (fun m => (some m, g))))

/-! ## Vertical-Street Ingest Stage (PostcodeParser.parse_vstreets) -/

/-- One record of a vertical-street text file. -/
structure VRow where
  postcode : String
  vstreet_ref : String
deriving DecidableEq, Repr

/-- The fixed two-column schema of the street staging table. -/
def vstreet_schema : List (String × String) :=
  [("postcode", "CHARACTER VARYING(8)"), ("vstreet_ref", "CHARACTER VARYING(8)")]

/-- The archive entries parse_vstreets streams: .TXT entries under the
vertical-streets section. -/
def vstreetTxtEntries (arcNames : List String) : List String :=
  arcNames.filter (fun f =>
    strEndsWith f ".TXT" && strBegins f "Polygons/Data/VERTICAL_STREETS")

/-- The action trace of parse_vstreets: drop both street tables, create the
staging table with the fixed schema, one streaming copy per matching .TXT
entry, then the batch that adds the serial key, materializes the lookup
table and keys it, and finally the drop of the staging table. -/
def parse_vstreets_trace (arcNames : List String) : List Action :=
  [ Action.callNamedBatch "exec_sql_statements"
      [.dropIfExists vstreet_table, .dropIfExists vstreet_target]
  , Action.callNamedBatch "exec_sql_statements"
      [.createTable vstreet_table vstreet_schema] ]
  ++ (vstreetTxtEntries arcNames).map (Action.copyCsv vstreet_table)
  ++ [ Action.callNamedBatch "exec_sql_statements"
        [ .addSerialColumn vstreet_table "id"
        , .createTableAsSelect false vstreet_target ["id", "postcode", "vstreet_ref"] vstreet_table
        , .addPrimaryKey vstreet_target "id" ]
     , Action.callNamedBatch "exec_sql_statements" [.dropTable vstreet_table] ]

/-- Surrogate keys n, n+1, ... attached to rows in order, modelling the
engine backfilling a BIGSERIAL column over the rows in insertion order. -/
def numberFrom : Nat → List VRow → List (Nat × VRow)
  | _, [] => []
  | n, r :: rs => (n, r) :: numberFrom (n + 1) rs

/-- State of the two street tables: the staging table (whether the serial
column has been added, and its rows in insertion order) and the lookup
table with its surrogate keys, plus whether the lookup table has its
primary key. -/
structure VState where
  vstage : Option (Bool × List VRow)
  vtarget : Option (List (Nat × VRow))
  vtargetPk : Bool
deriving DecidableEq, Repr

def applyVSql (st : VState) : Sql → VState
  | .dropIfExists t =>
    if t == vstreet_table then { st with vstage := none }
    else if t == vstreet_target then { st with vtarget := none, vtargetPk := false }
    else st
  | .dropTable t =>
    if t == vstreet_table then { st with vstage := none }
    else if t == vstreet_target then { st with vtarget := none, vtargetPk := false }
    else st
  | .createTable t _ =>
    if t == vstreet_table then { st with vstage := some (false, []) } else st
  | .addSerialColumn t _ =>
    if t == vstreet_table then { st with vstage := st.vstage.map (fun p => (true, p.2)) }
    else st
  | .createTableAsSelect _ t _ src =>
    if t == vstreet_target && src == vstreet_table then
      { st with vtarget :=
          match st.vstage with
          | some (true, rs) => some (numberFrom 1 rs)
          | _ => none }
    else st
  | .addPrimaryKey t _ =>
    if t == vstreet_target then { st with vtargetPk := true } else st
  | _ => st

/-- copy_from_csv appends the parsed rows of the entry to the staging table
(rowsOf gives each entry its records); a copy into a missing table fails and
is swallowed (see copy_from_csv), leaving the state unchanged. -/
def applyVAction (rowsOf : String → List VRow) (st : VState) : Action → VState
  | .callNamedBatch _ stmts => stmts.foldl applyVSql st
  | .copyCsv t entry =>
    if t == vstreet_table then
      { st with vstage := st.vstage.map (fun p => (p.1, p.2 ++ rowsOf entry)) }
    else st
  | _ => st

def runVTrace (rowsOf : String → List VRow) (tr : List Action) (st : VState) : VState :=
  tr.foldl (applyVAction rowsOf) st

/-! ## Indexing Stage (PostcodeParser.index_tables) -/

/-- The seven CREATE INDEX statements of index_tables, verbatim from the
source: index name, qualified table name, access method, column, and
whether varchar_pattern_ops is used. -/
def index_tables_stmts : List Sql :=
  [ .createIndex "core_postcode_polygon_id" "public.core_postcode" "gist" "polygon" false
  , .createIndex "core_postcode_postcode_36243775" "public.core_postcode" "btree" "postcode" false
  , .createIndex "core_postcode_postcode_36243775_like" "public.core_postcode" "btree" "postcode" true
  , .createIndex "core_vstreetlookup_postcode_4a092989" "public.core_vstreetlookup" "btree" "postcode" false
  , .createIndex "core_vstreetlookup_postcode_4a092989_like" "public.core_vstreetlookup" "btree" "postcode" true
  , .createIndex "core_vstreetlookup_vstreet_ref_b613262c" "public.core_vstreetlookup" "btree" "vstreet_ref" false
  , .createIndex "core_vstreetlookup_vstreet_ref_b613262c_like" "public.core_vstreetlookup" "btree" "vstreet_ref" true ]

def index_tables_trace : List Action :=
  [Action.callNamedBatch "exec_sql_statements" index_tables_stmts]

/-- The qualified table a createIndex statement targets. -/
def indexTargetTable : Sql → Option String
  | .createIndex _ t _ _ _ => some t
  | _ => none

/-! ## Python name resolution for the module

src/postcode_parser.py binds these names at module level (its imports, its
module constants, its def statements and its class statement).  The builtin
names the module references are listed separately; exec_sql_statements is
not a Python builtin. -/

def moduleGlobalNames : List String :=
  [ "os", "ZipFile", "config", "GoogleAuth", "GoogleDrive", "psycopg2"
  , "DATASETS_DIR", "GDRIVE_SETTINGS_FILE", "GDRIVE_TEAM_ID", "GDRIVE_FOLDER_ID"
  , "DB_HOST", "DB_PORT", "DB_USER", "DB_PASS", "DB_NAME", "DB_CONN_STR"
  , "create_service", "download_gdrive_folder", "copy_from_csv", "PostcodeParser" ]

def referencedBuiltinNames : List String :=
  ["print", "range", "len", "open", "str", "__name__"]

/-- A bare name used inside a method resolves when it is a module global or
a referenced builtin; otherwise its use raises NameError. -/
def resolvesGlobal (n : String) : Bool :=
  moduleGlobalNames.contains n || referencedBuiltinNames.contains n

/-- Exceptions the embedded fragments can raise. -/
inductive PyExn where
  | nameError (missing : String)
  | typeError
  | unboundLocalError
  | dbError
deriving DecidableEq, Repr

/-- Runs a stage trace under Python name resolution: a batch call first
resolves its callee, and an unresolvable callee raises NameError, executing
nothing further.  Returns the actions that completed and the exception, if
any. -/
def runPy : List Action → List Action × Option PyExn
  | [] => ([], none)
  | Action.callNamedBatch callee stmts :: rest =>
    if resolvesGlobal callee then
      let r := runPy rest
      (Action.callNamedBatch callee stmts :: r.1, r.2)
    else ([], some (.nameError callee))
  | a :: rest =>
    let r := runPy rest
    (a :: r.1, r.2)

/-! ## PostcodeParser.prepare and download_gdrive_folder -/

/-- The positional parameters of each module-level function definition, in
source order; none has a default value. -/
def moduleFunctionParams (n : String) : Option (List String) :=
  if n == "create_service" then some []
  else if n == "download_gdrive_folder" then some ["folder_id", "dest_path", "team_drive_id"]
  else if n == "copy_from_csv" then some ["sql_command", "csv_file"]
  else none

/-- The steps of PostcodeParser.prepare, in source order: make the base
directory, call download_gdrive_folder with two positional arguments
(self.folder_id, self.base_path), then scan the directory for the zip and
header files. -/
inductive PrepStep where
  | makedirs
  | callDownload (callee : String) (argCount : Nat)
  | scanArchiveDir
deriving DecidableEq, Repr

def prepare_steps : List PrepStep :=
  [.makedirs, .callDownload "download_gdrive_folder" 2, .scanArchiveDir]

/-- Runs the prepare steps: a call whose positional argument count differs
from the arity of the function it names raises TypeError (the function has
no defaults), and an unknown callee raises NameError; later steps do not
run.  Returns the completed steps and the exception, if any. -/
def runPrepareSteps : List PrepStep → List PrepStep × Option PyExn
  | [] => ([], none)
  | PrepStep.callDownload callee k :: rest =>
    (match moduleFunctionParams callee with
     | none => ([], some (.nameError callee))
     | some ps =>
       if k = ps.length then
         let r := runPrepareSteps rest
         (PrepStep.callDownload callee k :: r.1, r.2)
       else ([], some .typeError))
  | s :: rest =>
    let r := runPrepareSteps rest
    (s :: r.1, r.2)

/-! ## The orchestrator (PostcodeParser.parse) -/

inductive Stage where
  | prepare
  | parsePolys
  | parseInfo
  | parseVstreets
  | indexTables
  | cleanup
deriving DecidableEq, Repr

/-- The five stage calls that follow prepare in parse, in source order. -/
def pipelineStages : List Stage :=
  [.parsePolys, .parseInfo, .parseVstreets, .indexTables, .cleanup]

/-- Outcome of the prepare call: it returns an (err, msg) pair or raises. -/
inductive StageOutcome where
  | completes (err : Bool) (msg : String)
  | raises (e : PyExn)
deriving DecidableEq, Repr

/-- What prepare does, derived from its step model: it raises when a step
raises, and returns (False, the empty message) otherwise, as the source
returns the pair of False and the empty message. -/
def prepare_outcome : StageOutcome :=
  match (runPrepareSteps prepare_steps).2 with
  | some e => .raises e
  | none => .completes false ""

inductive ParseResult where
  | returned (err : Bool) (msg : String)
  | raised (e : PyExn)
deriving DecidableEq, Repr

/-- Runs the stage calls after prepare in order: a stage that raises stops
the sequence and the exception propagates; when all complete, parse returns
the pair of False and the empty message.  f gives each stage its outcome (none = completes). -/
def runStageSeq (f : Stage → Option PyExn) : List Stage → List Stage × ParseResult
  | [] => ([], .returned false "")
  | s :: rest =>
    match f s with
    | some e => ([s], .raised e)
    | none =>
      let r := runStageSeq f rest
      (s :: r.1, r.2)

/-- PostcodeParser.parse: run prepare; return early on err; otherwise run
parse_polys, parse_info, parse_vstreets, index_tables, cleanup in order with
no exception handling, so the first raise propagates out of parse.  Returns
the stages that were entered and the result. -/
def parseRun (prepRes : StageOutcome) (f : Stage → Option PyExn) :
    List Stage × ParseResult :=
  match prepRes with
  | .raises e => ([.prepare], .raised e)
  | .completes true m => ([.prepare], .returned true m)
  | .completes false _ =>
    let r := runStageSeq f pipelineStages
    (Stage.prepare :: r.1, r.2)

/-! ## The streaming bulk-copy primitive (copy_from_csv) -/

/-- Which operations inside the try suite of copy_from_csv fail: the
psycopg2.connect call, or the cursor.copy_expert call. -/
structure CopyBehavior where
  connectRaises : Bool
  copyRaises : Bool
deriving DecidableEq, Repr

inductive PyOutcome where
  | ret
  | raised (e : PyExn)
deriving DecidableEq, Repr

/-- Observable result of one copy_from_csv call. -/
structure CopyResult where
  printedErrors : Nat
  outcome : PyOutcome
  connAcquired : Bool
  connClosed : Bool
deriving DecidableEq, Repr

/-- Result of the try suite of copy_from_csv: the exception it raises if
any, whether the local conn was ever assigned, and whether the suite itself
already closed the connection (the success path closes and commits). -/
structure TryResult where
  exn : Option PyExn
  connBound : Bool
  connClosedInTry : Bool
deriving DecidableEq, Repr

/-- The try suite: conn = psycopg2.connect(...); cursor = conn.cursor();
cursor.copy_expert(...); cursor.close(); conn.commit(); conn.close().
If connect raises, conn is never bound; if copy_expert raises, conn is
bound but not yet closed. -/
def copyTryBody (b : CopyBehavior) : TryResult :=
  if b.connectRaises then { exn := some .dbError, connBound := false, connClosedInTry := false }
  else if b.copyRaises then { exn := some .dbError, connBound := true, connClosedInTry := false }
  else { exn := none, connBound := true, connClosedInTry := true }

/-- copy_from_csv: the except clause catches every exception of the try
suite (Exception, psycopg2.DatabaseError) and prints it; the finally clause
evaluates the local conn, which raises UnboundLocalError when connect
itself failed and conn was never assigned, and closes the connection
otherwise. -/
def copy_from_csv_run (b : CopyBehavior) : CopyResult :=
  let t := copyTryBody b
  let printed := if t.exn.isSome then 1 else 0
  if t.connBound then
    { printedErrors := printed, outcome := .ret, connAcquired := true, connClosed := true }
  else
    { printedErrors := printed, outcome := .raised .unboundLocalError
    , connAcquired := false, connClosed := false }

/-! ## The Schema Mapper as the spec words it (for comparison) -/

/-- Lines of the file without their newline terminators, Python-style
content.split on the newline character. -/
def plainLines (content : String) : List String :=
  pySplitChar '\n' content

/-- Modelled from the spec: section 4.2 says the Schema Mapper input is
"the last non-empty line of a header description file"; this definition
follows those words (the source instead takes readlines()[-1], settled in
the claims below). -/
def lastNonEmptyLine (content : String) : Option String :=
  match (plainLines content).filter (fun l => l ≠ "") with
  | [] => none
  | l :: ls => some (lastD l ls)

/-- Modelled from the spec: the column names as section 4.2 describes them,
the last non-empty line split on the field delimiter with each token
case-folded. -/
def specHeaderColumns (content : String) : Option (List String) :=
  (lastNonEmptyLine content).map (fun l => (pySplitChar ',' l).map pyLower)

/-! ## General lemmas about the helpers -/

theorem lastD_concat {α : Type} (l : List α) (a x : α) : lastD a (l ++ [x]) = x := by
  induction l generalizing a with
  | nil => simp [lastD]
  | cons b l ih => simpa [lastD] using ih b

theorem readlinesAux_concat_two_newlines (cs : List Char) :
    ∀ acc, ∃ pre, readlinesAux (cs ++ ['\n', '\n']) acc = pre ++ [['\n']] := by
  induction cs with
  | nil =>
    intro acc
    exact ⟨[acc.reverse ++ ['\n']], rfl⟩
  | cons c cs ih =>
    intro acc
    by_cases hc : c = '\n'
    · subst hc
      obtain ⟨pre, hpre⟩ := ih []
      exact ⟨(acc.reverse ++ ['\n']) :: pre, by simp [readlinesAux, hpre]⟩
    · obtain ⟨pre, hpre⟩ := ih (c :: acc)
      exact ⟨pre, by simp [readlinesAux, hc, hpre]⟩

theorem pyReadlines_concat_two_newlines (p : String) :
    ∃ pre : List String, pyReadlines (p ++ "\n\n") = pre ++ ["\n"] := by
  obtain ⟨pre, hpre⟩ := readlinesAux_concat_two_newlines p.data []
  refine ⟨pre.map String.mk, ?_⟩
  have hd : (p ++ "\n\n").data = p.data ++ ['\n', '\n'] := rfl
  simp only [pyReadlines, hd, hpre, List.map_append]
  rfl

/-! ## Claims -/

/-- Claim C1 (code defect): in parse_polys the drop of the geometry staging
table sits inside the loop over nested archives, not before it.  On an
archive with two nested archives (one shapefile each) the staging table is
dropped twice, not once, and after the stage only the shapefile rows of
the last nested archive survive into the geometry table, not the rows of
all shapefiles across all nested archives. -/
theorem c1_staging_dropped_once_per_nested_archive :
    ((sqlStatementsOf (parse_polys_trace "data" "pc.zip"
        [⟨"a.zip", ["one.shp"]⟩, ⟨"b.zip", ["two.shp"]⟩])).countP
      (fun s => s == Sql.dropIfExists staging_table)) = 2
    ∧ ((sqlStatementsOf (parse_polys_trace "data" "pc.zip"
        [⟨"a.zip", ["one.shp"]⟩, ⟨"b.zip", ["two.shp"]⟩])).countP
      (fun s => s == Sql.dropIfExists staging_table)) ≠ 1
    ∧ (runPolys (parse_polys_trace "data" "pc.zip"
        [⟨"a.zip", ["one.shp"]⟩, ⟨"b.zip", ["two.shp"]⟩]) ⟨none, none⟩).pgeom
      = some ["/vsizip/vsizip/data/pc.zip/b.zip/two.shp"]
    ∧ (runPolys (parse_polys_trace "data" "pc.zip"
        [⟨"a.zip", ["one.shp"]⟩, ⟨"b.zip", ["two.shp"]⟩]) ⟨none, none⟩).pgeom
      ≠ some ["/vsizip/vsizip/data/pc.zip/a.zip/one.shp",
              "/vsizip/vsizip/data/pc.zip/b.zip/two.shp"] := by
  decide

/-- Claim C2 (code defect): every CREATE INDEX statement of index_tables
targets public.core_postcode or public.core_vstreetlookup, and none
targets the tables this pipeline creates, postcode and vstreetlookup (nor
their public-qualified names); in particular the GiST polygon index is on
public.core_postcode, not on the Target Table. -/
theorem c2_index_statements_target_core_tables :
    target_table = "postcode"
    ∧ vstreet_target = "vstreetlookup"
    ∧ (index_tables_stmts.all (fun s =>
        match s with
        | Sql.createIndex _ t _ _ _ =>
          t == "public.core_postcode" || t == "public.core_vstreetlookup"
        | _ => false)) = true
    ∧ (index_tables_stmts.all (fun s =>
        match indexTargetTable s with
        | some t =>
          !(t == target_table || t == vstreet_target
            || t == "public." ++ target_table || t == "public." ++ vstreet_target)
        | none => true)) = true
    ∧ Sql.createIndex "core_postcode_polygon_id" "public.core_postcode" "gist" "polygon" false
        ∈ index_tables_stmts := by
  decide

/-- Claim C6 counterexample: on the header file content A,B followed by an
empty final line, the source derives the column names from
readlines()[-1], the empty last line, yielding the single token of that
newline, while the last non-empty line (as the claim states) is A,B with
tokens a and b; the two disagree. -/
theorem c6_counterexample_trailing_empty_line :
    lastNonEmptyLine "A,B\n\n" = some "A,B"
    ∧ specHeaderColumns "A,B\n\n" = some ["a", "b"]
    ∧ headerColumnNames "A,B\n\n" = some ["\n"]
    ∧ headerColumnNames "A,B\n\n" ≠ specHeaderColumns "A,B\n\n" := by
  decide

/-- Claim C6 as amended: parse_info derives the column names from the last
line of the header file as readlines returns it, empty or not.  Whenever
the content ends in an empty line (two final newlines), the derived column
list is the single newline token of that empty last line, regardless of
everything before it; when the last line is non-empty it is the one split,
as on A,B newline C,D; and the empty file yields no columns (IndexError in
the source). -/
theorem c6_header_uses_last_line :
    (∀ p : String, headerColumnNames (p ++ "\n\n") = some ["\n"])
    ∧ headerColumnNames "A,B\nC,D" = some ["C", "D"]
    ∧ headerColumnNames "" = none := by
  refine ⟨?_, by decide, by decide⟩
  intro p
  obtain ⟨pre, hpre⟩ := pyReadlines_concat_two_newlines p
  unfold headerColumnNames
  rw [hpre]
  cases pre with
  | nil => simp only [List.nil_append]; rfl
  | cons l ls =>
    have h : lastD l (ls ++ ["\n"]) = "\n" := lastD_concat ls l "\n"
    simp only [List.cons_append]
    rw [h]
    rfl

/-- Claim C3 counterexample: when establishing the connection itself fails
(a connection error), copy_from_csv prints the error but does not return
normally: the finally clause evaluates the never-assigned local conn and
raises UnboundLocalError, which propagates to the caller. -/
theorem c3_counterexample_connect_failure :
    (copy_from_csv_run ⟨true, false⟩).printedErrors = 1
    ∧ (copy_from_csv_run ⟨true, false⟩).outcome = .raised .unboundLocalError
    ∧ (copy_from_csv_run ⟨true, false⟩).outcome ≠ .ret := by
  decide

/-- Claim C3 as amended: for every error arising after the connection is
acquired (a database error during the copy), copy_from_csv prints the error
and returns normally with the connection closed; but when the connection
attempt itself fails, the error is printed and then the finally clause
raises UnboundLocalError, so an exception does propagate.  Any connection
handle actually acquired is closed on every exit path. -/
theorem c3_copy_from_csv_exception_paths (b : CopyBehavior) :
    (b.connectRaises = false →
      (copy_from_csv_run b).outcome = .ret
      ∧ (copy_from_csv_run b).connClosed = true
      ∧ (copy_from_csv_run b).printedErrors = (if b.copyRaises then 1 else 0))
    ∧ (b.connectRaises = true →
      (copy_from_csv_run b).outcome = .raised .unboundLocalError
      ∧ (copy_from_csv_run b).printedErrors = 1
      ∧ (copy_from_csv_run b).connAcquired = false)
    ∧ ((copy_from_csv_run b).connAcquired = true →
      (copy_from_csv_run b).connClosed = true) := by
  obtain ⟨c, p⟩ := b
  cases c <;> cases p <;> decide

/-- Witness for C3: the amended theorem applied at the two failing
behaviors. -/
theorem c3_witness_concrete :
    (copy_from_csv_run ⟨false, true⟩).outcome = .ret
    ∧ (copy_from_csv_run ⟨true, false⟩).outcome = .raised .unboundLocalError :=
  ⟨((c3_copy_from_csv_exception_paths ⟨false, true⟩).1 rfl).1,
   ((c3_copy_from_csv_exception_paths ⟨true, false⟩).2.1 rfl).1⟩

/-- Helper: a trace whose first action calls an unresolvable name executes
nothing and raises NameError. -/
theorem runPy_unresolved_head (callee : String) (stmts : List Sql) (rest : List Action)
    (h : resolvesGlobal callee = false) :
    runPy (Action.callNamedBatch callee stmts :: rest)
      = ([], some (.nameError callee)) := by
  simp [runPy, h]

/-- Claim C4: exec_sql_statements resolves to no module global and no
referenced builtin, and under Python name resolution every stage trace
(geometry ingest for any archive, attribute ingest for any header and
archive, street ingest for any archive, and indexing) executes no action at
all: the first batch call raises NameError "exec_sql_statements" before
any SQL statement is executed, so no stage can complete. -/
theorem c4_exec_sql_statements_unresolved :
    resolvesGlobal "exec_sql_statements" = false
    ∧ (∀ (basePath zipFileName : String) (arc : List ZipEntry),
        runPy (parse_polys_trace basePath zipFileName arc)
          = ([], some (.nameError "exec_sql_statements")))
    ∧ (∀ (basePath zipFileName : String) (columnNames arcNames : List String),
        runPy (parse_info_trace basePath zipFileName columnNames arcNames)
          = ([], some (.nameError "exec_sql_statements")))
    ∧ (∀ arcNames : List String,
        runPy (parse_vstreets_trace arcNames)
          = ([], some (.nameError "exec_sql_statements")))
    ∧ runPy index_tables_trace = ([], some (.nameError "exec_sql_statements")) := by
  have hres : resolvesGlobal "exec_sql_statements" = false := by decide
  refine ⟨hres, ?_, ?_, ?_, ?_⟩
  · intro bp zn arc
    unfold parse_polys_trace
    cases h : arc.filter (fun e => strEndsWith e.name ".zip") with
    | nil =>
      simp only [List.flatMap_nil, List.nil_append]
      exact runPy_unresolved_head _ _ _ hres
    | cons z zs =>
      simp only [List.flatMap_cons, List.cons_append]
      exact runPy_unresolved_head _ _ _ hres
  · intro bp zn cols arcNames
    exact runPy_unresolved_head _ _ _ hres
  · intro arcNames
    exact runPy_unresolved_head _ _ _ hres
  · exact runPy_unresolved_head _ _ _ hres

/-- Claim C5: download_gdrive_folder is defined with the three required
positional parameters folder_id, dest_path, team_drive_id and no defaults,
while prepare calls it with two positional arguments; so prepare completes
only its makedirs step and raises TypeError at the download call, and
parse therefore stops after the prepare stage for every behavior of the
later stages: parse_polys (and every later ingestion stage) is never
entered. -/
theorem c5_prepare_raises_typeerror :
    moduleFunctionParams "download_gdrive_folder"
      = some ["folder_id", "dest_path", "team_drive_id"]
    ∧ PrepStep.callDownload "download_gdrive_folder" 2 ∈ prepare_steps
    ∧ runPrepareSteps prepare_steps = ([.makedirs], some .typeError)
    ∧ PrepStep.scanArchiveDir ∉ (runPrepareSteps prepare_steps).1
    ∧ prepare_outcome = .raises .typeError
    ∧ (∀ f : Stage → Option PyExn,
        parseRun prepare_outcome f = ([.prepare], .raised .typeError))
    ∧ (∀ f : Stage → Option PyExn,
        Stage.parsePolys ∉ (parseRun prepare_outcome f).1) := by
  refine ⟨by decide, by decide, by decide, by decide, by decide, ?_, ?_⟩
  · intro f
    rfl
  · intro f
    have h : parseRun prepare_outcome f = ([.prepare], .raised .typeError) := rfl
    rw [h]
    decide

theorem columnMappingPlanAux_length (names : List String) :
    ∀ j, (columnMappingPlanAux j names).length = names.length := by
  induction names with
  | nil => intro j; rfl
  | cons c cs ih => intro j; simpa [columnMappingPlanAux] using ih (j + 1)

theorem columnMappingPlanAux_getElem (names : List String) :
    ∀ (st j : Nat), (columnMappingPlanAux st names)[j]?
      = (names[j]?).map (fun c => ("field_" ++ toString (st + j + 1), pyLower c)) := by
  induction names with
  | nil => intro st j; simp [columnMappingPlanAux]
  | cons c cs ih =>
    intro st j
    cases j with
    | zero => simp [columnMappingPlanAux]
    | succ j =>
      simp only [columnMappingPlanAux, List.getElem?_cons_succ]
      rw [ih (st + 1) j]
      have h : st + 1 + j + 1 = st + (j + 1) + 1 := by omega
      rw [h]

theorem joinProjection_excluded_iff (names : List String) (c : String) (hc : c ∈ names) :
    ((staging_table, pyLower c) ∈ joinProjection names
      ↔ excludedColumns.contains (pyLower c) = false) := by
  have hhead : ∀ x : String,
      (staging_table, x) ∉ [(geom_table, "id"), (geom_table, "postcode"), (geom_table, "pc_area")] := by
    intro x hx
    simp only [List.mem_cons, List.not_mem_nil, or_false] at hx
    rcases hx with h | h | h <;>
      · have h2 : staging_table = geom_table := congrArg Prod.fst h
        exact absurd h2 (by decide)
  have htail : ∀ x : String, (staging_table, x) ∉ [(geom_table, "polygon")] := by
    intro x hx
    simp only [List.mem_singleton] at hx
    have h2 : staging_table = geom_table := congrArg Prod.fst hx
    exact absurd h2 (by decide)
  constructor
  · intro h
    unfold joinProjection at h
    rcases List.mem_append.1 h with h1 | h2
    · rcases List.mem_append.1 h1 with h3 | h4
      · exact absurd h3 (hhead _)
      · rcases List.mem_map.1 h4 with ⟨d, hd, hde⟩
        have hlow : pyLower d = pyLower c := by
          simpa [Prod.mk.injEq] using hde
        have hp := (List.mem_filter.1 hd).2
        rw [hlow] at hp
        simpa using hp
    · exact absurd h2 (htail _)
  · intro h
    unfold joinProjection
    refine List.mem_append.2 (Or.inl (List.mem_append.2 (Or.inr ?_)))
    refine List.mem_map.2 ⟨c, List.mem_filter.2 ⟨hc, ?_⟩, rfl⟩
    show (!(excludedColumns.contains (pyLower c))) = true
    rw [h]
    rfl

/-- Claim C7: for every header file whose last line yields column names
c_1..c_N, the Column Mapping Plan has exactly N pairs, the j-th pair (from
zero) renames field_(j+1) to the lowercased token, and the join projection
contains the staging reference of a mapped column exactly when its
lowercased name is outside the configured exclusion set, independent of
N. -/
theorem c7_column_mapping_plan (content : String) (names : List String)
    (_h : headerColumnNames content = some names) :
    (columnMappingPlan names).length = names.length
    ∧ (∀ j : Nat, (columnMappingPlan names)[j]?
        = (names[j]?).map (fun c => ("field_" ++ toString (j + 1), pyLower c)))
    ∧ (∀ c ∈ names,
        ((staging_table, pyLower c) ∈ joinProjection names
          ↔ excludedColumns.contains (pyLower c) = false)) := by
  refine ⟨columnMappingPlanAux_length names 0, ?_, ?_⟩
  · intro j
    simpa using columnMappingPlanAux_getElem names 0 j
  · intro c hc
    exact joinProjection_excluded_iff names c hc

/-- Witness for C7: the theorem applied to the concrete header file from
the spec scenario, with four columns; eastings is excluded from the
projection and country_code is not. -/
theorem c7_witness_concrete :
    (columnMappingPlan ["postcode", "eastings", "northings", "country_code"]).length = 4
    ∧ ((staging_table, "country_code")
        ∈ joinProjection ["postcode", "eastings", "northings", "country_code"])
    ∧ ((staging_table, "eastings")
        ∉ joinProjection ["postcode", "eastings", "northings", "country_code"]) := by
  have h := c7_column_mapping_plan "postcode,eastings,northings,country_code"
    ["postcode", "eastings", "northings", "country_code"] (by decide)
  refine ⟨h.1.trans (by decide), ?_, ?_⟩
  · have hiff := h.2.2 "country_code" (by decide)
    rw [show pyLower "country_code" = "country_code" from by decide] at hiff
    exact hiff.mpr (by decide)
  · have hiff := h.2.2 "eastings" (by decide)
    rw [show pyLower "eastings" = "eastings" from by decide] at hiff
    intro hmem
    exact absurd (hiff.mp hmem) (by decide)

theorem renameStmtsAux_shape (names : List String) :
    ∀ j s, s ∈ renameStmtsAux j names → ∃ o n, s = Sql.renameColumn staging_table o n := by
  induction names with
  | nil => intro j s h; simp [renameStmtsAux] at h
  | cons c cs ih =>
    intro j s h
    simp only [renameStmtsAux, List.mem_cons] at h
    rcases h with h | h
    · exact ⟨_, _, h⟩
    · exact ih (j + 1) s h

theorem rightJoin_mem_elim {sRows : List AttrRow} {gRows : List GeomRow}
    {pr : Option AttrRow × GeomRow} (h : pr ∈ rightJoinOnPostcode sRows gRows) :
    pr.2 ∈ gRows ∧ ∀ a, pr.1 = some a → a ∈ sRows ∧ a.postcode = pr.2.postcode := by
  unfold rightJoinOnPostcode at h
  rcases List.mem_flatMap.1 h with ⟨g, hg, hpr⟩
  cases hfil : sRows.filter (fun a => a.postcode == g.postcode) with
  | nil =>
    rw [hfil] at hpr
    simp only [List.mem_singleton] at hpr
    subst hpr
    refine ⟨hg, ?_⟩
    intro a ha
    simp at ha
  | cons m ms =>
    rw [hfil] at hpr
    rcases List.mem_map.1 hpr with ⟨a, ha, hae⟩
    have ha2 : a ∈ sRows.filter (fun a => a.postcode == g.postcode) := by
      rw [hfil]; exact ha
    have hmem := List.mem_filter.1 ha2
    have hpc : a.postcode = g.postcode := by
      have := hmem.2
      simpa using this
    subst hae
    refine ⟨hg, ?_⟩
    intro a2 he
    simp only [Option.some.injEq] at he
    subst he
    exact ⟨hmem.1, hpc⟩

/-- Claim C8: in the parse_info merge batch the target table is created as
the right join of the attribute staging table onto the geometry table keyed
on postcode, and the drops of the geometry and staging tables occur only in
the part of the batch after that create; and under right-join semantics
every geometry row appears in the join (paired with none when no attribute
row matches its postcode), every joined pair carries a geometry row and a
matching attribute row if any, and an attribute row whose postcode matches
no geometry row appears in no pair. -/
theorem c8_right_join_target (names : List String) (sRows : List AttrRow)
    (gRows : List GeomRow) :
    (∃ l1 l2, parse_info_merge_batch names = l1 ++ l2
      ∧ Sql.createTableRightJoin target_table (joinProjection names)
          staging_table geom_table "postcode" ∈ l1
      ∧ Sql.dropTable geom_table ∈ l2
      ∧ Sql.dropTable staging_table ∈ l2
      ∧ Sql.dropTable geom_table ∉ l1
      ∧ Sql.dropTable staging_table ∉ l1)
    ∧ (∀ g ∈ gRows, ∃ pr ∈ rightJoinOnPostcode sRows gRows, pr.2 = g)
    ∧ (∀ g ∈ gRows, (∀ a ∈ sRows, a.postcode ≠ g.postcode) →
        (none, g) ∈ rightJoinOnPostcode sRows gRows)
    ∧ (∀ pr ∈ rightJoinOnPostcode sRows gRows,
        pr.2 ∈ gRows ∧ ∀ a, pr.1 = some a → a ∈ sRows ∧ a.postcode = pr.2.postcode)
    ∧ (∀ a ∈ sRows, (∀ g ∈ gRows, g.postcode ≠ a.postcode) →
        ∀ pr ∈ rightJoinOnPostcode sRows gRows, pr.1 ≠ some a) := by
  refine ⟨?_, ?_, ?_, fun pr hpr => rightJoin_mem_elim hpr, ?_⟩
  · refine ⟨renameStmtsAux 0 names
        ++ [ Sql.dropIfExists target_table
           , Sql.createTableRightJoin target_table (joinProjection names)
               staging_table geom_table "postcode" ]
      , parse_info_type_casts
        ++ [ Sql.addPrimaryKey target_table "id"
           , Sql.dropTable geom_table
           , Sql.dropTable staging_table ], ?_, ?_, ?_, ?_, ?_, ?_⟩
    · simp [parse_info_merge_batch, List.append_assoc]
    · exact List.mem_append.2 (Or.inr (by simp))
    · exact List.mem_append.2 (Or.inr (by decide))
    · exact List.mem_append.2 (Or.inr (by decide))
    · intro hmem
      rcases List.mem_append.1 hmem with h | h
      · obtain ⟨o, n, he⟩ := renameStmtsAux_shape names 0 _ h
        exact Sql.noConfusion he
      · simp only [List.mem_cons, List.not_mem_nil, or_false] at h
        rcases h with h | h <;> exact Sql.noConfusion h
    · intro hmem
      rcases List.mem_append.1 hmem with h | h
      · obtain ⟨o, n, he⟩ := renameStmtsAux_shape names 0 _ h
        exact Sql.noConfusion he
      · simp only [List.mem_cons, List.not_mem_nil, or_false] at h
        rcases h with h | h <;> exact Sql.noConfusion h
  · intro g hg
    unfold rightJoinOnPostcode
    cases hfil : sRows.filter (fun a => a.postcode == g.postcode) with
    | nil =>
      refine ⟨(none, g), List.mem_flatMap.2 ⟨g, hg, ?_⟩, rfl⟩
      rw [hfil]
      simp
    | cons m ms =>
      refine ⟨(some m, g), List.mem_flatMap.2 ⟨g, hg, ?_⟩, rfl⟩
      rw [hfil]
      exact List.mem_map.2 ⟨m, by simp, rfl⟩
  · intro g hg hnone
    unfold rightJoinOnPostcode
    have hfil : sRows.filter (fun a => a.postcode == g.postcode) = [] := by
      rw [List.filter_eq_nil_iff]
      intro a ha
      simpa using hnone a ha
    refine List.mem_flatMap.2 ⟨g, hg, ?_⟩
    rw [hfil]
    simp
  · intro a ha hnog pr hpr he
    obtain ⟨hg, hmatch⟩ := rightJoin_mem_elim hpr
    obtain ⟨_, hpc⟩ := hmatch a he
    exact hnog pr.2 hg hpc.symm

/-- Witness for C8: the theorem applied to concrete tables; the geometry
row with postcode CD2 has no attribute row and still appears, joined with
none. -/
theorem c8_witness_concrete :
    (none, GeomRow.mk 2 "CD2" "CD" "p2")
      ∈ rightJoinOnPostcode [⟨"AB1", ["x"]⟩, ⟨"ZZ9", ["y"]⟩]
          [⟨1, "AB1", "AB", "p1"⟩, ⟨2, "CD2", "CD", "p2"⟩] := by
  have h := c8_right_join_target ["postcode", "country_code"]
    [⟨"AB1", ["x"]⟩, ⟨"ZZ9", ["y"]⟩]
    [⟨1, "AB1", "AB", "p1"⟩, ⟨2, "CD2", "CD", "p2"⟩]
  exact h.2.2.1 ⟨2, "CD2", "CD", "p2"⟩ (by decide) (by decide)

/-- Claim C9: parse is strictly sequential with no retries.  If prepare
raises, parse raises the same exception having entered only the prepare
stage; if prepare returns an error pair, parse returns it; if every stage
completes, parse enters exactly Prepare, GeometryIngest, AttributeIngest,
StreetIngest, Index, Cleanup in that order and returns the False pair; and if
the stage at position k is the first to raise, parse enters exactly the
stages through position k, the exception propagates out of parse, and
(when the failing stage precedes cleanup) cleanup is never entered. -/
theorem c9_sequential_orchestration (prepRes : StageOutcome) (f : Stage → Option PyExn) :
    (∀ e, prepRes = .raises e → parseRun prepRes f = ([.prepare], .raised e))
    ∧ (∀ m, prepRes = .completes true m → parseRun prepRes f = ([.prepare], .returned true m))
    ∧ (∀ m, prepRes = .completes false m →
        (∀ s ∈ pipelineStages, f s = none) →
        parseRun prepRes f = (Stage.prepare :: pipelineStages, .returned false ""))
    ∧ (∀ m k e, prepRes = .completes false m →
        k < pipelineStages.length →
        (∀ s ∈ pipelineStages.take k, f s = none) →
        f (pipelineStages.getD k .cleanup) = some e →
        parseRun prepRes f
          = (Stage.prepare :: pipelineStages.take (k + 1), .raised e))
    ∧ (∀ m k e, prepRes = .completes false m →
        k + 1 < pipelineStages.length →
        (∀ s ∈ pipelineStages.take k, f s = none) →
        f (pipelineStages.getD k .cleanup) = some e →
        Stage.cleanup ∉ (parseRun prepRes f).1) := by
  have hlen : pipelineStages.length = 5 := rfl
  refine ⟨?_, ?_, ?_, ?_, ?_⟩
  · intro e h; subst h; rfl
  · intro m h; subst h; rfl
  · intro m h hall
    subst h
    have h1 : f .parsePolys = none := hall _ (by decide)
    have h2 : f .parseInfo = none := hall _ (by decide)
    have h3 : f .parseVstreets = none := hall _ (by decide)
    have h4 : f .indexTables = none := hall _ (by decide)
    have h5 : f .cleanup = none := hall _ (by decide)
    simp [parseRun, pipelineStages, runStageSeq, h1, h2, h3, h4, h5]
  · intro m k e h hk hprev hfail
    subst h
    have hk5 : k < 5 := by rw [hlen] at hk; exact hk
    interval_cases k
    · have hf : f .parsePolys = some e := hfail
      simp [parseRun, pipelineStages, runStageSeq, hf]
    · have h1 : f .parsePolys = none := hprev _ (by decide)
      have hf : f .parseInfo = some e := hfail
      simp [parseRun, pipelineStages, runStageSeq, h1, hf]
    · have h1 : f .parsePolys = none := hprev _ (by decide)
      have h2 : f .parseInfo = none := hprev _ (by decide)
      have hf : f .parseVstreets = some e := hfail
      simp [parseRun, pipelineStages, runStageSeq, h1, h2, hf]
    · have h1 : f .parsePolys = none := hprev _ (by decide)
      have h2 : f .parseInfo = none := hprev _ (by decide)
      have h3 : f .parseVstreets = none := hprev _ (by decide)
      have hf : f .indexTables = some e := hfail
      simp [parseRun, pipelineStages, runStageSeq, h1, h2, h3, hf]
    · have h1 : f .parsePolys = none := hprev _ (by decide)
      have h2 : f .parseInfo = none := hprev _ (by decide)
      have h3 : f .parseVstreets = none := hprev _ (by decide)
      have h4 : f .indexTables = none := hprev _ (by decide)
      have hf : f .cleanup = some e := hfail
      simp [parseRun, pipelineStages, runStageSeq, h1, h2, h3, h4, hf]
  · intro m k e h hk hprev hfail
    subst h
    have hk4 : k < 4 := by rw [hlen] at hk; omega
    interval_cases k
    · have hf : f .parsePolys = some e := hfail
      simp [parseRun, pipelineStages, runStageSeq, hf]
    · have h1 : f .parsePolys = none := hprev _ (by decide)
      have hf : f .parseInfo = some e := hfail
      simp [parseRun, pipelineStages, runStageSeq, h1, hf]
    · have h1 : f .parsePolys = none := hprev _ (by decide)
      have h2 : f .parseInfo = none := hprev _ (by decide)
      have hf : f .parseVstreets = some e := hfail
      simp [parseRun, pipelineStages, runStageSeq, h1, h2, hf]
    · have h1 : f .parsePolys = none := hprev _ (by decide)
      have h2 : f .parseInfo = none := hprev _ (by decide)
      have h3 : f .parseVstreets = none := hprev _ (by decide)
      have hf : f .indexTables = some e := hfail
      simp [parseRun, pipelineStages, runStageSeq, h1, h2, h3, hf]

/-- Witness for C9: the theorem applied to a run whose street-ingest stage
raises a database error: parse enters prepare, parse_polys, parse_info and
parse_vstreets, the exception propagates, and nothing later runs. -/
theorem c9_witness_concrete :
    parseRun (.completes false "")
      (fun s => if s = Stage.parseVstreets then some .dbError else none)
      = ([Stage.prepare, Stage.parsePolys, Stage.parseInfo, Stage.parseVstreets],
         .raised .dbError) := by
  have h := c9_sequential_orchestration (.completes false "")
    (fun s => if s = Stage.parseVstreets then some .dbError else none)
  exact h.2.2.2.1 "" 2 .dbError rfl (by decide) (by decide) (by decide)

theorem numberFrom_zip (l : List VRow) :
    ∀ n, numberFrom n l = (List.range' n l.length).zip l := by
  induction l with
  | nil => intro n; simp [numberFrom]
  | cons r rs ih =>
    intro n
    simp only [numberFrom, List.length_cons, List.range'_succ, List.zip_cons_cons]
    rw [ih (n + 1)]

theorem foldl_copyCsv (rowsOf : String → List VRow) (txts : List String) :
    ∀ (b : Bool) (rs : List VRow) (tgt : Option (List (Nat × VRow))) (pk : Bool),
      (txts.map (Action.copyCsv vstreet_table)).foldl (applyVAction rowsOf)
        ⟨some (b, rs), tgt, pk⟩
      = ⟨some (b, rs ++ txts.flatMap rowsOf), tgt, pk⟩ := by
  induction txts with
  | nil => intro b rs tgt pk; simp
  | cons t ts ih =>
    intro b rs tgt pk
    simp only [List.map_cons, List.foldl_cons]
    have step : applyVAction rowsOf ⟨some (b, rs), tgt, pk⟩ (Action.copyCsv vstreet_table t)
        = ⟨some (b, rs ++ rowsOf t), tgt, pk⟩ := by
      simp [applyVAction]
    rw [step, ih]
    simp [List.flatMap_cons, List.append_assoc]

/-- Claim C10: from any initial state of the street tables, parse_vstreets
first drops both street tables, creates the staging table with exactly the
two-column schema, streams each matching .TXT entry through the bulk-copy
primitive (no ogr2ogr action occurs in the trace), then adds the serial
key, materializes vstreetlookup as the (id, postcode, vstreet_ref)
projection with its primary key, and finally drops the staging table; the
final state has no staging table and a lookup table whose rows are the
concatenated file rows with surrogate ids 1, 2, ... in insertion order. -/
theorem c10_vstreet_stage (arcNames : List String) (rowsOf : String → List VRow)
    (init : VState) :
    runVTrace rowsOf (parse_vstreets_trace arcNames) init
      = ⟨none, some (numberFrom 1 ((vstreetTxtEntries arcNames).flatMap rowsOf)), true⟩
    ∧ numberFrom 1 ((vstreetTxtEntries arcNames).flatMap rowsOf)
      = (List.range' 1 ((vstreetTxtEntries arcNames).flatMap rowsOf).length).zip
          ((vstreetTxtEntries arcNames).flatMap rowsOf)
    ∧ (parse_vstreets_trace arcNames).head?
      = some (.callNamedBatch "exec_sql_statements"
          [.dropIfExists vstreet_table, .dropIfExists vstreet_target])
    ∧ (Action.callNamedBatch "exec_sql_statements" [.createTable vstreet_table vstreet_schema])
        ∈ parse_vstreets_trace arcNames
    ∧ (parse_vstreets_trace arcNames).getLast?
      = some (.callNamedBatch "exec_sql_statements" [.dropTable vstreet_table])
    ∧ (Action.callNamedBatch "exec_sql_statements"
        [ .addSerialColumn vstreet_table "id"
        , .createTableAsSelect false vstreet_target ["id", "postcode", "vstreet_ref"] vstreet_table
        , .addPrimaryKey vstreet_target "id" ]) ∈ parse_vstreets_trace arcNames
    ∧ ((parse_vstreets_trace arcNames).all (fun a =>
        match a with
        | .ogr2ogr _ _ _ _ _ => false
        | _ => true)) = true := by
  obtain ⟨s0, t0, p0⟩ := init
  refine ⟨?_, numberFrom_zip _ 1, ?_, ?_, ?_, ?_, ?_⟩
  · unfold runVTrace parse_vstreets_trace
    simp only [List.cons_append, List.nil_append, List.foldl_cons, List.foldl_append]
    have h1 : applyVAction rowsOf ⟨s0, t0, p0⟩
        (.callNamedBatch "exec_sql_statements"
          [.dropIfExists vstreet_table, .dropIfExists vstreet_target])
        = ⟨none, none, false⟩ := by
      simp [applyVAction, applyVSql,
        show (vstreet_target == vstreet_table) = false from by decide,
        show (vstreet_target == vstreet_target) = true from by decide]
    have h2 : applyVAction rowsOf ⟨none, none, false⟩
        (.callNamedBatch "exec_sql_statements" [.createTable vstreet_table vstreet_schema])
        = ⟨some (false, []), none, false⟩ := by
      simp [applyVAction, applyVSql]
    rw [h1, h2, foldl_copyCsv]
    simp only [List.foldl_cons, List.foldl_nil]
    have h3 : applyVAction rowsOf ⟨some (false, [] ++ (vstreetTxtEntries arcNames).flatMap rowsOf), none, false⟩
        (.callNamedBatch "exec_sql_statements"
          [ .addSerialColumn vstreet_table "id"
          , .createTableAsSelect false vstreet_target ["id", "postcode", "vstreet_ref"] vstreet_table
          , .addPrimaryKey vstreet_target "id" ])
        = ⟨some (true, (vstreetTxtEntries arcNames).flatMap rowsOf),
           some (numberFrom 1 ((vstreetTxtEntries arcNames).flatMap rowsOf)), true⟩ := by
      simp [applyVAction, applyVSql,
        show (vstreet_target == vstreet_table) = false from by decide,
        show (vstreet_table == vstreet_target) = false from by decide,
        show (vstreet_target == vstreet_target) = true from by decide]
    rw [h3]
    simp [applyVAction, applyVSql,
      show (vstreet_target == vstreet_table) = false from by decide]
  · rfl
  · unfold parse_vstreets_trace
    simp
  · unfold parse_vstreets_trace
    rw [List.getLast?_append, List.getLast?_append]
    rfl
  · unfold parse_vstreets_trace
    simp
  · unfold parse_vstreets_trace
    rw [List.all_append, List.all_append, Bool.and_eq_true, Bool.and_eq_true]
    refine ⟨⟨rfl, ?_⟩, rfl⟩
    rw [List.all_eq_true]
    intro a ha
    rcases List.mem_map.1 ha with ⟨t, ht, rfl⟩
    rfl

end PostcodeParserModel
